import Mathlib

/-!
Shallow embedding of `src/sys/socket/addr.rs` (the socket-address module of
the nix crate): address families, IPv4/IPv6/Inet addresses, Unix-domain
addresses, the platform-specific Netlink/Packet/SysControl wrappers, and the
top-level `SockAddr` union, together with theorems about the properties the
module is specified to have.

Modelling conventions:
* Machine integers (`u8`, `u16`, `u32`, `i32`, `usize`) are modelled as `Nat`;
  wrap-around is written with an explicit `% 256` / `% 2^16` / `% 2^32` at the
  places the source performs a narrowing cast.  All byte/segment values that
  come from real machine words carry explicit bound hypotheses where needed.
* Fixed C arrays (`[c_char; 108]`, `[u8; 8]`, `s6_addr: [u8; 16]`) are
  modelled as `List Nat` together with a well-formedness predicate fixing the
  length where a claim needs it.
* `cfg(target_os = ...)` conditional compilation is modelled by an explicit
  `Platform` parameter on the functions whose source text is cfg-dependent
  (`AddressFamily::from_i32`, `SockAddr::from_libc_sockaddr`).  The numeric
  `AF_*` constants take their per-platform libc values.  The data structures
  themselves are modelled once, as the union over platforms, since their field
  layout and the eq/hash/size code attached to each variant is identical
  wherever the variant exists.
* A Rust function that can `assert!`-panic is modelled with an `Option`
  result: `none` is the panic.  A Rust function returning `Result` is
  modelled with `Except`.
* `u16::to_be` / `u32::to_be` (and `from_be`) are the host-to-network byte
  swaps; the model fixes a little-endian host, on which both directions are
  the byte swap.  The round-trip properties proved below hold on either
  endianness since `from_be ∘ to_be = id` always.
-/

/-- The target platforms whose `cfg` gates occur in the source. `other`
stands for any further Unix target (the BSDs etc.), on which none of the
`cfg`-gated match arms of `from_i32` are compiled in. -/
inductive Platform
  | linux
  | android
  | ios
  | macos
  | other
  deriving DecidableEq, Repr

/-- `true` exactly on the targets matched by
`cfg(any(target_os = "android", target_os = "linux"))`. -/
def Platform.isLinuxLike : Platform → Bool
  | .linux => true
  | .android => true
  | _ => false

/-- `true` exactly on the targets matched by
`cfg(any(target_os = "ios", target_os = "macos"))`. -/
def Platform.isAppleLike : Platform → Bool
  | .ios => true
  | .macos => true
  | _ => false

/-- `libc::AF_UNIX` (1 on every supported target). -/
def AF_UNIX (_ : Platform) : Int := 1

/-- `libc::AF_INET` (2 on every supported target). -/
def AF_INET (_ : Platform) : Int := 2

/-- `libc::AF_INET6` (10 on Linux/Android, 30 on Apple targets). -/
def AF_INET6 : Platform → Int
  | .linux => 10
  | .android => 10
  | .ios => 30
  | .macos => 30
  | .other => 28

/-- `libc::AF_NETLINK` (16; the constant exists on Linux/Android). -/
def AF_NETLINK (_ : Platform) : Int := 16

/-- `libc::AF_PACKET` (17; the constant exists on Linux/Android). -/
def AF_PACKET (_ : Platform) : Int := 17

/-- `libc::AF_SYSTEM` (32; the constant exists on Apple targets). -/
def AF_SYSTEM (_ : Platform) : Int := 32

/-- The tags of `enum AddressFamily` that `from_i32` can produce.  The Rust
enum has many further `cfg`-gated variants (Ax25, Ipx, ...), none of which
`from_i32` ever returns; they play no role in any property below. -/
inductive AddressFamily
  | Unix
  | Inet
  | Inet6
  | Netlink
  | Packet
  | System
  deriving DecidableEq, Repr

/-- `AddressFamily::from_i32`, match arm by match arm.  The guard on each
`cfg`-gated arm records the platforms on which that arm is compiled in:
the Netlink and Packet arms carry `cfg(any(target_os = "android",
target_os = "linux"))`; the System arm carries `cfg(any(target_os = "macos",
target_os = "macos"))` — the source text literally repeats `macos`, so that
arm is compiled on macOS only, not on iOS. -/
def AddressFamily.from_i32 (p : Platform) (family : Int) : Option AddressFamily :=
  if family = AF_UNIX p then some .Unix
  else if family = AF_INET p then some .Inet
  else if family = AF_INET6 p then some .Inet6
  else if p.isLinuxLike ∧ family = AF_NETLINK p then some .Netlink
  else if p.isLinuxLike ∧ family = AF_PACKET p then some .Packet
  else if p = .macos ∧ family = AF_SYSTEM p then some .System
  else none

/-- `u16::to_be` / `u16::from_be` on a little-endian host: swap the two
bytes of a 16-bit value. -/
def swap16 (n : Nat) : Nat := n % 256 * 256 + n / 256 % 256

/-- `u32::to_be` / `u32::from_be` on a little-endian host: reverse the four
bytes of a 32-bit value. -/
def swap32 (n : Nat) : Nat :=
  n % 256 * 2 ^ 24 + n / 2 ^ 8 % 256 * 2 ^ 16 + n / 2 ^ 16 % 256 * 2 ^ 8 + n / 2 ^ 24 % 256

/-- `libc::in_addr`: one 32-bit word holding the IPv4 address bytes. -/
structure in_addr where
  s_addr : Nat
  deriving DecidableEq, Repr

/-- `libc::sockaddr_in`.  The `sin_zero` padding bytes carry no data and are
never read by any function of the module, so they are not modelled. -/
structure sockaddr_in where
  sin_family : Nat
  sin_port : Nat
  sin_addr : in_addr
  deriving DecidableEq, Repr

/-- `libc::in6_addr`: the sixteen address bytes, in network order. -/
structure in6_addr where
  s6_addr : List Nat
  deriving DecidableEq, Repr

/-- `libc::sockaddr_in6`. -/
structure sockaddr_in6 where
  sin6_family : Nat
  sin6_port : Nat
  sin6_flowinfo : Nat
  sin6_addr : in6_addr
  sin6_scope_id : Nat
  deriving DecidableEq, Repr

/-- `std::net::Ipv4Addr`: four octets. -/
structure StdIpv4 where
  o0 : Nat
  o1 : Nat
  o2 : Nat
  o3 : Nat
  deriving DecidableEq, Repr

/-- `std::net::Ipv6Addr`: eight 16-bit segments. -/
structure StdIpv6 where
  s0 : Nat
  s1 : Nat
  s2 : Nat
  s3 : Nat
  s4 : Nat
  s5 : Nat
  s6 : Nat
  s7 : Nat
  deriving DecidableEq, Repr

/-- `std::net::SocketAddrV4`: generic IPv4 endpoint. -/
structure StdSocketAddrV4 where
  ip : StdIpv4
  port : Nat
  deriving DecidableEq, Repr

/-- `std::net::SocketAddrV6`: generic IPv6 endpoint with flow-info and
scope-id. -/
structure StdSocketAddrV6 where
  ip : StdIpv6
  port : Nat
  flowinfo : Nat
  scope_id : Nat
  deriving DecidableEq, Repr

/-- `std::net::SocketAddr`. -/
inductive StdSocketAddr
  | V4 (a : StdSocketAddrV4)
  | V6 (a : StdSocketAddrV6)
  deriving DecidableEq, Repr

/-- `Ipv4Addr` of the module: a wrapper around `libc::in_addr`. -/
structure Ipv4Addr where
  inner : in_addr
  deriving DecidableEq, Repr

/-- `Ipv4Addr::new`: packs the four octets into one word, high octet first
(the source writes `(a << 24) | (b << 16) | (c << 8) | d`; the four summands
occupy disjoint byte ranges, so the bitwise or is the sum), then converts to
network order with `u32::to_be`. -/
def Ipv4Addr.new (a b c d : Nat) : Ipv4Addr :=
  ⟨⟨swap32 (a * 2 ^ 24 + b * 2 ^ 16 + c * 2 ^ 8 + d)⟩⟩

/-- `Ipv4Addr::from_std`. -/
def Ipv4Addr.from_std (std : StdIpv4) : Ipv4Addr :=
  Ipv4Addr.new std.o0 std.o1 std.o2 std.o3

/-- `Ipv4Addr::octets`: `u32::from_be` then the four bytes from high to low,
each narrowed `as u8`. -/
def Ipv4Addr.octets (x : Ipv4Addr) : List Nat :=
  let bits := swap32 x.inner.s_addr
  [bits / 2 ^ 24 % 256, bits / 2 ^ 16 % 256, bits / 2 ^ 8 % 256, bits % 256]

/-- `Ipv4Addr::to_std`. -/
def Ipv4Addr.to_std (x : Ipv4Addr) : StdIpv4 :=
  let bits := x.octets
  ⟨bits.getD 0 0, bits.getD 1 0, bits.getD 2 0, bits.getD 3 0⟩

/-- `Ipv6Addr` of the module: a wrapper around `libc::in6_addr`. -/
structure Ipv6Addr where
  inner : in6_addr
  deriving DecidableEq, Repr

/-- `Ipv6Addr::new` via the `to_u8_array!` macro: every 16-bit segment
contributes its high byte (`seg >> 8` narrowed `as u8`) then its low byte
(`seg & 0xff`). -/
def Ipv6Addr.new (a b c d e f g h : Nat) : Ipv6Addr :=
  ⟨⟨[a / 256 % 256, a % 256, b / 256 % 256, b % 256,
     c / 256 % 256, c % 256, d / 256 % 256, d % 256,
     e / 256 % 256, e % 256, f / 256 % 256, f % 256,
     g / 256 % 256, g % 256, h / 256 % 256, h % 256]⟩⟩

/-- `Ipv6Addr::from_std`. -/
def Ipv6Addr.from_std (std : StdIpv6) : Ipv6Addr :=
  Ipv6Addr.new std.s0 std.s1 std.s2 std.s3 std.s4 std.s5 std.s6 std.s7

/-- `Ipv6Addr::segments` via the `to_u16_array!` macro: byte `2i` widened to
`u16`, shifted left by 8, plus byte `2i+1`. -/
def Ipv6Addr.segments (x : Ipv6Addr) : List Nat :=
  let b := x.inner.s6_addr
  [b.getD 0 0 * 256 + b.getD 1 0, b.getD 2 0 * 256 + b.getD 3 0,
   b.getD 4 0 * 256 + b.getD 5 0, b.getD 6 0 * 256 + b.getD 7 0,
   b.getD 8 0 * 256 + b.getD 9 0, b.getD 10 0 * 256 + b.getD 11 0,
   b.getD 12 0 * 256 + b.getD 13 0, b.getD 14 0 * 256 + b.getD 15 0]

/-- `Ipv6Addr::to_std`. -/
def Ipv6Addr.to_std (x : Ipv6Addr) : StdIpv6 :=
  let s := x.segments
  ⟨s.getD 0 0, s.getD 1 0, s.getD 2 0, s.getD 3 0,
   s.getD 4 0, s.getD 5 0, s.getD 6 0, s.getD 7 0⟩

/-- `enum IpAddr` of the module. -/
inductive IpAddr
  | V4 (a : Ipv4Addr)
  | V6 (a : Ipv6Addr)
  deriving DecidableEq, Repr

/-- The value `AddressFamily::Inet as sa_family_t` stored by the
constructors.  The structures are constructed with the Linux value 2; the
stored value never influences any property proved below. -/
def AF_INET_C : Nat := 2

/-- The value `AddressFamily::Inet6 as sa_family_t` (Linux value 10). -/
def AF_INET6_C : Nat := 10

/-- The value `AddressFamily::Unix as sa_family_t` (1 everywhere). -/
def AF_UNIX_C : Nat := 1

/-- `enum InetAddr` of the module: the literal kernel structures. -/
inductive InetAddr
  | V4 (sa : sockaddr_in)
  | V6 (sa : sockaddr_in6)
  deriving DecidableEq, Repr

/-- `InetAddr::from_std`: builds the kernel structure from the generic
`std::net::SocketAddr`; the port is stored with `to_be` (network order),
IPv6 flow-info and scope-id are stored unchanged (host order); the remaining
fields are zero-initialized by `mem::zeroed()`. -/
def InetAddr.from_std (std : StdSocketAddr) : InetAddr :=
  match std with
  | .V4 a =>
      .V4 { sin_family := AF_INET_C
            sin_port := swap16 a.port
            sin_addr := (Ipv4Addr.from_std a.ip).inner }
  | .V6 a =>
      .V6 { sin6_family := AF_INET6_C
            sin6_port := swap16 a.port
            sin6_flowinfo := a.flowinfo
            sin6_addr := (Ipv6Addr.from_std a.ip).inner
            sin6_scope_id := a.scope_id }

/-- `InetAddr::new`. -/
def InetAddr.new (ip : IpAddr) (port : Nat) : InetAddr :=
  match ip with
  | .V4 x =>
      .V4 { sin_family := AF_INET_C
            sin_port := swap16 port
            sin_addr := x.inner }
  | .V6 x =>
      .V6 { sin6_family := AF_INET6_C
            sin6_port := swap16 port
            sin6_flowinfo := 0
            sin6_addr := x.inner
            sin6_scope_id := 0 }

/-- `InetAddr::ip`. -/
def InetAddr.ip : InetAddr → IpAddr
  | .V4 sa => .V4 ⟨sa.sin_addr⟩
  | .V6 sa => .V6 ⟨sa.sin6_addr⟩

/-- `InetAddr::port`: always `u16::from_be` of the stored port field. -/
def InetAddr.port : InetAddr → Nat
  | .V4 sa => swap16 sa.sin_port
  | .V6 sa => swap16 sa.sin6_port

/-- `InetAddr::to_std`. -/
def InetAddr.to_std (x : InetAddr) : StdSocketAddr :=
  match x with
  | .V4 sa => .V4 ⟨Ipv4Addr.to_std ⟨sa.sin_addr⟩, x.port⟩
  | .V6 sa => .V6 ⟨Ipv6Addr.to_std ⟨sa.sin6_addr⟩, x.port, sa.sin6_flowinfo, sa.sin6_scope_id⟩

/-- `impl PartialEq for InetAddr`: V4 against V4 compares `sin_port` and
`sin_addr.s_addr` only (the stored `sin_family` is ignored); V6 against V6
compares port, address bytes, flow-info and scope-id; mixed variants are
unequal. -/
def InetAddr.beq : InetAddr → InetAddr → Bool
  | .V4 a, .V4 b => a.sin_port == b.sin_port && a.sin_addr.s_addr == b.sin_addr.s_addr
  | .V6 a, .V6 b =>
      a.sin6_port == b.sin6_port && a.sin6_addr.s6_addr == b.sin6_addr.s6_addr &&
        a.sin6_flowinfo == b.sin6_flowinfo && a.sin6_scope_id == b.sin6_scope_id
  | _, _ => false

/-- `impl hash::Hash for InetAddr`: the exact tuple of field values fed to
the hasher, flattened to a list.  For V4 the tuple is
`(sin_family, sin_port, sin_addr.s_addr)`; for V6 it is
`(sin6_family, sin6_port, s6_addr, sin6_flowinfo, sin6_scope_id)`. -/
def InetAddr.hashInput : InetAddr → List Nat
  | .V4 a => [a.sin_family, a.sin_port, a.sin_addr.s_addr]
  | .V6 a => [a.sin6_family, a.sin6_port] ++ a.sin6_addr.s6_addr ++ [a.sin6_flowinfo, a.sin6_scope_id]

/-- The capacity of `sockaddr_un.sun_path`: `[c_char; 108]` on Linux. -/
def sunPathLen : Nat := 108

/-- `libc::sockaddr_un`. -/
structure sockaddr_un where
  sun_family : Nat
  sun_path : List Nat
  deriving DecidableEq, Repr

/-- `UnixAddr`: the raw `sockaddr_un` plus the used length of `sun_path`
(the `pub usize` second tuple field). -/
structure UnixAddr where
  sa : sockaddr_un
  len : Nat
  deriving DecidableEq, Repr

/-- Well-formedness of the modelled fixed array: the path buffer holds
exactly `sunPathLen` bytes and the used length never exceeds it (every value
the module constructs satisfies both). -/
def UnixAddr.wf (u : UnixAddr) : Prop :=
  u.sa.sun_path.length = sunPathLen ∧ u.len ≤ sunPathLen

instance (u : UnixAddr) : Decidable u.wf := by
  unfold UnixAddr.wf; infer_instance

/-- The single error kind the module raises: `Error::Sys(Errno::ENAMETOOLONG)`. -/
inductive AddrError
  | ENAMETOOLONG
  deriving DecidableEq, Repr

/-- `UnixAddr::new`, modelled on the byte slice `cstr.to_bytes()` that
`with_nix_path` hands to the closure (the path bytes, NUL-free, without any
terminator).  The structure starts `mem::zeroed()` with `sun_family` set,
the length check rejects `bytes.len() > sun_path capacity`, and
`ptr::copy_nonoverlapping` writes the bytes over the zeroed prefix. -/
def UnixAddr.new (bytes : List Nat) : Except AddrError UnixAddr :=
  if bytes.length > sunPathLen then
    .error .ENAMETOOLONG
  else
    .ok ⟨⟨AF_UNIX_C, bytes ++ List.replicate (sunPathLen - bytes.length) 0⟩, bytes.length⟩

/-- `UnixAddr::new_abstract`: rejects `path.len() + 1 > capacity`; otherwise
the name is copied starting one byte in, leaving the leading zero byte from
`mem::zeroed()`, and the recorded length is `path.len() + 1`. -/
def UnixAddr.new_abstract (path : List Nat) : Except AddrError UnixAddr :=
  if path.length + 1 > sunPathLen then
    .error .ENAMETOOLONG
  else
    .ok ⟨⟨AF_UNIX_C, 0 :: (path ++ List.replicate (sunPathLen - 1 - path.length) 0)⟩,
         path.length + 1⟩

/-- `UnixAddr::sun_path`: the slice of the first `self.1` bytes of the
buffer (`slice::from_raw_parts(self.0.sun_path.as_ptr(), self.1)`). -/
def UnixAddr.sun_path_slice (u : UnixAddr) : List Nat :=
  u.sa.sun_path.take u.len

/-- `libc::strnlen(ptr, maxlen)`: the index of the first zero byte among the
first `maxlen` bytes, or `maxlen` if there is none (`List.findIdx` returns
the length of `take maxlen`, which is `maxlen` whenever the buffer holds at
least `maxlen` bytes). -/
def strnlen (bytes : List Nat) (maxlen : Nat) : Nat :=
  (bytes.take maxlen).findIdx (fun b => b == 0)

/-- `UnixAddr::path`: `None` when the used length is zero (unnamed) or the
first buffer byte is zero (abstract); otherwise the first
`strnlen(buffer, used_length)` bytes of the used slice. -/
def UnixAddr.path (u : UnixAddr) : Option (List Nat) :=
  if u.len = 0 ∨ u.sa.sun_path.headD 0 = 0 then
    none
  else
    some (u.sun_path_slice.take (strnlen u.sa.sun_path u.len))

/-- `UnixAddr::as_abstract`: the bytes after the leading zero when the value
is in abstract mode, `None` otherwise. -/
def UnixAddr.as_abstract (u : UnixAddr) : Option (List Nat) :=
  if 1 ≤ u.len ∧ u.sa.sun_path.headD 0 = 0 then
    some (u.sun_path_slice.drop 1)
  else
    none

/-- `impl PartialEq for UnixAddr`: compares the used-length-bounded slices
`self.sun_path() == other.sun_path()` and nothing else. -/
def UnixAddr.beq (u v : UnixAddr) : Bool :=
  u.sun_path_slice == v.sun_path_slice

/-- `impl hash::Hash for UnixAddr`: the hasher is fed the pair
`(self.0.sun_family, self.sun_path())`, flattened to a list. -/
def UnixAddr.hashInput (u : UnixAddr) : List Nat :=
  u.sa.sun_family :: u.sun_path_slice

/-- `libc::sockaddr_nl` (the fields the module touches; `nl_pad` carries no
data). -/
structure sockaddr_nl where
  nl_family : Nat
  nl_pid : Nat
  nl_groups : Nat
  deriving DecidableEq, Repr

/-- `NetlinkAddr`: wrapper around `sockaddr_nl`. -/
structure NetlinkAddr where
  inner : sockaddr_nl
  deriving DecidableEq, Repr

/-- `impl PartialEq for NetlinkAddr`: compares the tuple
`(nl_family, nl_pid, nl_groups)`. -/
def NetlinkAddr.beq (a b : NetlinkAddr) : Bool :=
  a.inner.nl_family == b.inner.nl_family && a.inner.nl_pid == b.inner.nl_pid &&
    a.inner.nl_groups == b.inner.nl_groups

/-- `impl Hash for NetlinkAddr`: the tuple fed to the hasher. -/
def NetlinkAddr.hashInput (a : NetlinkAddr) : List Nat :=
  [a.inner.nl_family, a.inner.nl_pid, a.inner.nl_groups]

/-- The capacity of `sockaddr_ll.sll_addr`: `[c_uchar; 8]`, so
`mem::size_of_val(&inner.sll_addr) = 8`. -/
def sllAddrLen : Nat := 8

/-- `libc::sockaddr_ll`. -/
structure sockaddr_ll where
  sll_family : Nat
  sll_protocol : Nat
  sll_ifindex : Nat
  sll_hatype : Nat
  sll_pkttype : Nat
  sll_halen : Nat
  sll_addr : List Nat
  deriving DecidableEq, Repr

/-- `PacketAddr`: wrapper around `sockaddr_ll`. -/
structure PacketAddr where
  inner : sockaddr_ll
  deriving DecidableEq, Repr

/-- `PacketAddr::get_addr`: the slice `&sll_addr[..sll_halen]`. -/
def PacketAddr.get_addr (a : PacketAddr) : List Nat :=
  a.inner.sll_addr.take a.inner.sll_halen

/-- The value `libc::AF_PACKET as sa_family_t` the assertions compare
against (17 on Linux/Android, the targets on which `PacketAddr` exists). -/
def AF_PACKET_C : Nat := 17

/-- `impl PartialEq for PacketAddr`: four `assert!`s run before the
comparison — each operand's `sll_family` must equal `AF_PACKET` and each
operand's `sll_halen` must be strictly below
`mem::size_of_val(&inner.sll_addr)` — and a failing assertion panics, which
the model renders as `none`.  When all four hold, the result is the tuple
comparison over family, protocol, ifindex, hatype, pkttype and the
halen-bounded hardware-address slices. -/
def PacketAddr.eq (self other_pa : PacketAddr) : Option Bool :=
  let inner := self.inner
  let other := other_pa.inner
  if inner.sll_family ≠ AF_PACKET_C then none
  else if ¬ inner.sll_halen < sllAddrLen then none
  else if other.sll_family ≠ AF_PACKET_C then none
  else if ¬ other.sll_halen < sllAddrLen then none
  else some (inner.sll_family == other.sll_family &&
             inner.sll_protocol == other.sll_protocol &&
             inner.sll_ifindex == other.sll_ifindex &&
             inner.sll_hatype == other.sll_hatype &&
             inner.sll_pkttype == other.sll_pkttype &&
             self.get_addr == other_pa.get_addr)

/-- `impl Hash for PacketAddr`: the tuple fed to the hasher, flattened. -/
def PacketAddr.hashInput (a : PacketAddr) : List Nat :=
  [a.inner.sll_family, a.inner.sll_protocol, a.inner.sll_ifindex,
   a.inner.sll_hatype, a.inner.sll_pkttype] ++ a.get_addr

/-- `sockaddr_ctl` as declared in the `sys_control` module. -/
structure sockaddr_ctl where
  sc_len : Nat
  sc_family : Nat
  ss_sysaddr : Nat
  sc_id : Nat
  sc_unit : Nat
  sc_reserved : List Nat
  deriving DecidableEq, Repr

/-- `SysControlAddr`: wrapper around `sockaddr_ctl`. -/
structure SysControlAddr where
  inner : sockaddr_ctl
  deriving DecidableEq, Repr

/-- `impl PartialEq for SysControlAddr`: compares `(sc_id, sc_unit)` only. -/
def SysControlAddr.beq (a b : SysControlAddr) : Bool :=
  a.inner.sc_id == b.inner.sc_id && a.inner.sc_unit == b.inner.sc_unit

/-- `impl Hash for SysControlAddr`: the tuple fed to the hasher. -/
def SysControlAddr.hashInput (a : SysControlAddr) : List Nat :=
  [a.inner.sc_id, a.inner.sc_unit]

/-- `enum SockAddr`: the tagged union.  The Netlink and Packet variants are
compiled on Linux/Android, SysControl on Apple targets; the union over
platforms is modelled, since the code attached to each variant is the same
wherever the variant exists. -/
inductive SockAddr
  | Inet (a : InetAddr)
  | Unix (u : UnixAddr)
  | Netlink (n : NetlinkAddr)
  | Packet (pa : PacketAddr)
  | SysControl (s : SysControlAddr)
  deriving DecidableEq, Repr

/-- `SockAddr::family`. -/
def SockAddr.family : SockAddr → AddressFamily
  | .Inet (.V4 _) => .Inet
  | .Inet (.V6 _) => .Inet6
  | .Unix _ => .Unix
  | .Netlink _ => .Netlink
  | .Packet _ => .Packet
  | .SysControl _ => .System

/-- `impl PartialEq for SockAddr`: the match has arms only for Inet/Inet,
Unix/Unix and Netlink/Netlink; every other combination — including
Packet against Packet and SysControl against SysControl — falls to the
`_ => false` catch-all. -/
def SockAddr.beq : SockAddr → SockAddr → Bool
  | .Inet a, .Inet b => InetAddr.beq a b
  | .Unix a, .Unix b => UnixAddr.beq a b
  | .Netlink a, .Netlink b => NetlinkAddr.beq a b
  | _, _ => false

/-- `impl hash::Hash for SockAddr`: delegates to the active variant's hash
for every variant. -/
def SockAddr.hashInput : SockAddr → List Nat
  | .Inet a => InetAddr.hashInput a
  | .Unix a => UnixAddr.hashInput a
  | .Netlink a => NetlinkAddr.hashInput a
  | .Packet a => PacketAddr.hashInput a
  | .SysControl a => SysControlAddr.hashInput a

/-- The bytes behind the non-null `*const libc::sockaddr` argument of
`from_libc_sockaddr`, carried together with each reinterpretation the
function's casts can apply to them: `(*addr).sa_family` is the header field
(a `sa_family_t` widened `as i32`), and the `as_*` fields are the readings
of the same buffer as each concrete structure type. -/
structure RawSock where
  sa_family : Nat
  as_sockaddr_in : sockaddr_in
  as_sockaddr_in6 : sockaddr_in6
  as_sockaddr_nl : sockaddr_nl
  as_sockaddr_ll : sockaddr_ll
  as_sockaddr_ctl : sockaddr_ctl
  deriving DecidableEq, Repr

/-- `SockAddr::from_libc_sockaddr`.  A null pointer is `none`; otherwise the
function dispatches on `AddressFamily::from_i32` of the header family.  The
`cfg`-gated match arms (Netlink/Packet on Linux/Android, System on
iOS/macOS) are guarded by the platform; on a platform where such an arm is
not compiled in, the `Some(_) => None` catch-all applies. -/
def SockAddr.from_libc_sockaddr (p : Platform) (addr : Option RawSock) : Option SockAddr :=
  match addr with
  | none => none
  | some r =>
    match AddressFamily.from_i32 p (r.sa_family : Int) with
    | some .Unix => none
    | some .Inet => some (.Inet (.V4 r.as_sockaddr_in))
    | some .Inet6 => some (.Inet (.V6 r.as_sockaddr_in6))
    | some .Netlink =>
        if p.isLinuxLike then some (.Netlink ⟨r.as_sockaddr_nl⟩) else none
    | some .Packet =>
        if p.isLinuxLike then some (.Packet ⟨r.as_sockaddr_ll⟩) else none
    | some .System =>
        if p.isAppleLike then some (.SysControl ⟨r.as_sockaddr_ctl⟩) else none
    | none => none

/-- `mem::size_of::<libc::sockaddr_in>()` (16 bytes). -/
def sizeof_sockaddr_in : Nat := 16

/-- `mem::size_of::<libc::sockaddr_in6>()` (28 bytes). -/
def sizeof_sockaddr_in6 : Nat := 28

/-- `mem::size_of::<libc::sockaddr_nl>()` (12 bytes). -/
def sizeof_sockaddr_nl : Nat := 12

/-- `mem::size_of::<libc::sockaddr_ll>()` (20 bytes). -/
def sizeof_sockaddr_ll : Nat := 20

/-- `mem::size_of::<sys_control::sockaddr_ctl>()` (32 bytes). -/
def sizeof_sockaddr_ctl : Nat := 32

/-- `offset_of!(libc::sockaddr_un, sun_path)`: the path buffer starts right
after the 2-byte `sun_family` field. -/
def offsetof_sun_path : Nat := 2

/-- The pointer half of the `(&libc::sockaddr, socklen_t)` pair: a read-only
view of the active variant's structure. -/
inductive FfiPtr
  | inP (sa : sockaddr_in)
  | in6P (sa : sockaddr_in6)
  | unP (sa : sockaddr_un)
  | nlP (sa : sockaddr_nl)
  | llP (sa : sockaddr_ll)
  | ctlP (sa : sockaddr_ctl)
  deriving DecidableEq, Repr

/-- `SockAddr::as_ffi_pair`: the variant's structure together with the
length handed to the kernel — `mem::size_of` of the structure type for every
fixed-size variant, and `used_length + offset_of!(sockaddr_un, sun_path)`
for Unix. -/
def SockAddr.as_ffi_pair : SockAddr → FfiPtr × Nat
  | .Inet (.V4 sa) => (.inP sa, sizeof_sockaddr_in)
  | .Inet (.V6 sa) => (.in6P sa, sizeof_sockaddr_in6)
  | .Unix u => (.unP u.sa, u.len + offsetof_sun_path)
  | .Netlink n => (.nlP n.inner, sizeof_sockaddr_nl)
  | .Packet pa => (.llP pa.inner, sizeof_sockaddr_ll)
  | .SysControl s => (.ctlP s.inner, sizeof_sockaddr_ctl)

/-- C1: the claim says equality delegates to the active variant for all five
variants; in the code the `match` of `impl PartialEq for SockAddr` has arms
only for Inet, Unix and Netlink, so two Packet (or SysControl) values fall to
the `_ => false` catch-all and compare unequal even when the wrapped values
are identical — a value is unequal to itself, contradicting the reflexivity
the adjacent `impl Eq for SockAddr` asserts.  This theorem evaluates the
code at such a failing input: a well-formed `PacketAddr` (family
`AF_PACKET`, `sll_halen` in bounds) is unequal to itself as a `SockAddr`
although the variant's own equality accepts the pair, and likewise for
`SysControlAddr`. -/
theorem c1_sockaddr_eq_drops_packet_and_syscontrol :
    SockAddr.beq (.Packet ⟨⟨17, 0, 0, 0, 0, 0, List.replicate 8 0⟩⟩)
      (.Packet ⟨⟨17, 0, 0, 0, 0, 0, List.replicate 8 0⟩⟩) = false
  ∧ PacketAddr.eq ⟨⟨17, 0, 0, 0, 0, 0, List.replicate 8 0⟩⟩
      ⟨⟨17, 0, 0, 0, 0, 0, List.replicate 8 0⟩⟩ = some true
  ∧ SockAddr.beq (.SysControl ⟨⟨32, 32, 2, 5, 1, List.replicate 5 0⟩⟩)
      (.SysControl ⟨⟨32, 32, 2, 5, 1, List.replicate 5 0⟩⟩) = false
  ∧ SysControlAddr.beq ⟨⟨32, 32, 2, 5, 1, List.replicate 5 0⟩⟩
      ⟨⟨32, 32, 2, 5, 1, List.replicate 5 0⟩⟩ = true := by
  decide

/-- C2: the claim says `from_i32` returns the System tag on both iOS and
macOS.  The `cfg` attribute on the `AF_SYSTEM` match arm literally reads
`any(target_os = "macos", target_os = "macos")` — `macos` twice, `ios`
missing — so on iOS the arm is not compiled and `from_i32(AF_SYSTEM)` falls
to the catch-all `None`, although the `System` variant itself exists on iOS
and the function's doc comment lists System as supported.  This theorem
evaluates the code at the failing input (iOS, code `AF_SYSTEM = 32`),
contrasts it with macOS, and also records the claim's true part that a
valid-but-unhandled family code (here `AF_IPX = 4` on Linux) decodes to
`None`. -/
theorem c2_from_i32_system_missing_on_ios :
    AddressFamily.from_i32 .ios (AF_SYSTEM .ios) = none
  ∧ AddressFamily.from_i32 .macos (AF_SYSTEM .macos) = some .System
  ∧ AddressFamily.from_i32 .linux 4 = none := by
  decide

/-- C6: the second component of `as_ffi_pair` — the `socklen_t` handed to
the kernel — is `mem::size_of` of the active variant's structure type for
every fixed-size variant, and the `sun_path` field offset plus the used
length for Unix. -/
theorem c6_as_ffi_pair_length_matches_variant :
    (∀ sa : sockaddr_in, (SockAddr.as_ffi_pair (.Inet (.V4 sa))).2 = sizeof_sockaddr_in)
  ∧ (∀ sa : sockaddr_in6, (SockAddr.as_ffi_pair (.Inet (.V6 sa))).2 = sizeof_sockaddr_in6)
  ∧ (∀ u : UnixAddr, (SockAddr.as_ffi_pair (.Unix u)).2 = offsetof_sun_path + u.len)
  ∧ (∀ n : NetlinkAddr, (SockAddr.as_ffi_pair (.Netlink n)).2 = sizeof_sockaddr_nl)
  ∧ (∀ pa : PacketAddr, (SockAddr.as_ffi_pair (.Packet pa)).2 = sizeof_sockaddr_ll)
  ∧ (∀ s : SysControlAddr, (SockAddr.as_ffi_pair (.SysControl s)).2 = sizeof_sockaddr_ctl) := by
  refine ⟨fun _ => rfl, fun _ => rfl, fun u => ?_, fun _ => rfl, fun _ => rfl, fun _ => rfl⟩
  simp [SockAddr.as_ffi_pair, Nat.add_comm]

/-- C10: on two V4 values `InetAddr`'s equality compares exactly the port
and address fields (the stored `sin_family` is ignored), while its hash
feeds `sin_family` to the hasher as well; consequently two raw-constructed
V4 values differing only in `sin_family` compare equal yet present different
hash inputs. -/
theorem c10_inetaddr_v4_eq_ignores_family_hash_uses_it :
    (∀ a b : sockaddr_in,
        InetAddr.beq (.V4 a) (.V4 b) = true ↔
          a.sin_port = b.sin_port ∧ a.sin_addr.s_addr = b.sin_addr.s_addr)
  ∧ (∀ a : sockaddr_in,
        InetAddr.hashInput (.V4 a) = [a.sin_family, a.sin_port, a.sin_addr.s_addr])
  ∧ (InetAddr.beq (.V4 ⟨2, 80, ⟨1⟩⟩) (.V4 ⟨0, 80, ⟨1⟩⟩) = true
     ∧ InetAddr.hashInput (.V4 ⟨2, 80, ⟨1⟩⟩) ≠ InetAddr.hashInput (.V4 ⟨0, 80, ⟨1⟩⟩)) := by
  refine ⟨fun a b => ?_, fun a => rfl, by decide⟩
  simp [InetAddr.beq, Bool.and_eq_true, beq_iff_eq]

/-- C3 counterexample: the claim states that whenever both operands'
`sll_halen` values are in bounds, equality holds iff the enumerated fields
match.  Take one all-zero `sockaddr_ll` compared with itself: the length 0
is in bounds and every enumerated field trivially matches, so the claim
demands the comparison succeed with `true`; but the comparison's first
assertion (`sll_family == AF_PACKET`, a check the claim does not mention)
fails, so the code panics instead (`none` in the model). -/
theorem c3_counterexample_family_assert :
    (0 < sllAddrLen)
  ∧ PacketAddr.eq ⟨⟨0, 0, 0, 0, 0, 0, List.replicate 8 0⟩⟩
      ⟨⟨0, 0, 0, 0, 0, 0, List.replicate 8 0⟩⟩ ≠ some true := by
  decide

/-- C3 (amended): `PacketAddr` equality bound-checks each operand's
`sll_halen` against the fixed capacity of `sll_addr` before comparing, and
an out-of-bounds length always makes an assertion fail (never a silent
truncation); the assertions additionally require each operand's
`sll_family` to equal `AF_PACKET`, and when all assertions pass, equality
holds iff family, protocol, interface index, hardware-address type, packet
type and the halen-bounded hardware-address bytes all match. -/
theorem c3_packet_eq_bound_checked :
    (∀ a b : PacketAddr,
        sllAddrLen ≤ a.inner.sll_halen ∨ sllAddrLen ≤ b.inner.sll_halen →
          PacketAddr.eq a b = none)
  ∧ (∀ a b : PacketAddr,
        a.inner.sll_family = AF_PACKET_C → b.inner.sll_family = AF_PACKET_C →
        a.inner.sll_halen < sllAddrLen → b.inner.sll_halen < sllAddrLen →
          (PacketAddr.eq a b = some true ↔
            (a.inner.sll_family = b.inner.sll_family ∧
             a.inner.sll_protocol = b.inner.sll_protocol ∧
             a.inner.sll_ifindex = b.inner.sll_ifindex ∧
             a.inner.sll_hatype = b.inner.sll_hatype ∧
             a.inner.sll_pkttype = b.inner.sll_pkttype ∧
             PacketAddr.get_addr a = PacketAddr.get_addr b))) := by
  constructor
  · intro a b h
    unfold PacketAddr.eq
    rcases h with h | h
    · rcases eq_or_ne a.inner.sll_family AF_PACKET_C with hf | hf
      · simp [hf, Nat.not_lt.mpr h]
      · simp [hf]
    · rcases eq_or_ne a.inner.sll_family AF_PACKET_C with hf | hf
      · rcases Nat.lt_or_ge a.inner.sll_halen sllAddrLen with hl | hl
        · rcases eq_or_ne b.inner.sll_family AF_PACKET_C with hg | hg
          · simp [hf, hg, hl, Nat.not_lt.mpr h]
          · simp [hf, hg, hl]
        · simp [hf, Nat.not_lt.mpr hl]
      · simp [hf]
  · intro a b hf hg hla hlb
    unfold PacketAddr.eq
    simp [hf, hg, hla, hlb, Bool.and_eq_true, beq_iff_eq, and_assoc]

/-- C3 witness: the amended theorem applied at concrete inputs — an
out-of-bounds `sll_halen` of 9 makes the comparison a defect, and two
in-bounds values agreeing on the first 6 hardware-address bytes but
differing in the unused tail compare equal. -/
theorem c3_packet_eq_bound_checked_witness :
    (sllAddrLen ≤ 9)
  ∧ PacketAddr.eq ⟨⟨17, 1, 2, 3, 4, 9, List.replicate 8 0⟩⟩
      ⟨⟨17, 1, 2, 3, 4, 9, List.replicate 8 0⟩⟩ = none
  ∧ PacketAddr.eq ⟨⟨17, 1, 2, 3, 4, 6, [10, 20, 30, 40, 50, 60, 0, 0]⟩⟩
      ⟨⟨17, 1, 2, 3, 4, 6, [10, 20, 30, 40, 50, 60, 9, 9]⟩⟩ = some true := by
  refine ⟨by decide, c3_packet_eq_bound_checked.1 _ _ (Or.inl (by decide)), ?_⟩
  exact (c3_packet_eq_bound_checked.2 _ _ (by decide) (by decide) (by decide) (by decide)).2
    (by decide)

/-- C9 counterexample: the claim states that equality and hashing compare
only the used-length-bounded byte slice, so any two values with the same
used length and identical bytes in the first used_length positions hash
identically.  Two raw-constructed `UnixAddr` values with identical buffers
and lengths but different `sun_family` fields compare equal, yet the hasher
is fed `(sun_family, slice)`, so their hash inputs differ. -/
theorem c9_counterexample_hash_feeds_family :
    UnixAddr.beq ⟨⟨1, List.replicate 108 7⟩, 2⟩ ⟨⟨9, List.replicate 108 7⟩, 2⟩ = true
  ∧ UnixAddr.hashInput ⟨⟨1, List.replicate 108 7⟩, 2⟩ ≠
      UnixAddr.hashInput ⟨⟨9, List.replicate 108 7⟩, 2⟩ := by
  decide

/-- C9 (amended): `UnixAddr` equality compares only the used-length-bounded
byte slice of the path buffer (even `sun_family` is ignored); hashing feeds
`sun_family` together with that slice; hence two values with equal
`sun_family`, the same used length and identical bytes in the first
used_length positions are equal and hash identically regardless of any
differing trailing bytes in the unused remainder of the buffer. -/
theorem c9_unixaddr_eq_hash_bounded_slice :
    (∀ u v : UnixAddr,
        UnixAddr.beq u v = true ↔ u.sa.sun_path.take u.len = v.sa.sun_path.take v.len)
  ∧ (∀ u v : UnixAddr,
        u.sa.sun_family = v.sa.sun_family → u.len = v.len →
        u.sa.sun_path.take u.len = v.sa.sun_path.take v.len →
          UnixAddr.beq u v = true ∧ UnixAddr.hashInput u = UnixAddr.hashInput v) := by
  constructor
  · intro u v
    simp [UnixAddr.beq, UnixAddr.sun_path_slice]
  · intro u v hfam _ hbytes
    refine ⟨?_, ?_⟩
    · simp [UnixAddr.beq, UnixAddr.sun_path_slice, hbytes]
    · simp [UnixAddr.hashInput, UnixAddr.sun_path_slice, hfam, hbytes]

/-- C9 witness: the amended theorem applied at concrete inputs whose unused
buffer tails differ. -/
theorem c9_unixaddr_eq_hash_bounded_slice_witness :
    ((⟨⟨1, [47, 97] ++ List.replicate 106 3⟩, 2⟩ : UnixAddr).sa.sun_family =
        (⟨⟨1, [47, 97] ++ List.replicate 106 8⟩, 2⟩ : UnixAddr).sa.sun_family)
  ∧ (UnixAddr.beq ⟨⟨1, [47, 97] ++ List.replicate 106 3⟩, 2⟩
        ⟨⟨1, [47, 97] ++ List.replicate 106 8⟩, 2⟩ = true
     ∧ UnixAddr.hashInput ⟨⟨1, [47, 97] ++ List.replicate 106 3⟩, 2⟩ =
        UnixAddr.hashInput ⟨⟨1, [47, 97] ++ List.replicate 106 8⟩, 2⟩) := by
  refine ⟨rfl, c9_unixaddr_eq_hash_bounded_slice.2 _ _ rfl rfl (by decide)⟩

/-- C5: `UnixAddr::new` fails with `ENAMETOOLONG` exactly when the path's
byte length exceeds the `sun_path` capacity (a path of exactly the capacity
is accepted); on success the path bytes occupy the first `used_length`
buffer positions verbatim with no added terminator, `used_length` is the
path length, and the rest of the buffer is the `mem::zeroed()` fill.
`new_abstract` fails exactly when `name_len + 1` exceeds the capacity; on
success the used region is a zero byte followed by the name, with
`used_length = name_len + 1`.  On failure the result is the bare error — no
address value, truncated or otherwise, is produced. -/
theorem c5_unixaddr_new_length_check (bytes : List Nat) :
    (UnixAddr.new bytes = .error .ENAMETOOLONG ↔ sunPathLen < bytes.length)
  ∧ (∀ u : UnixAddr, UnixAddr.new bytes = .ok u →
      u.len = bytes.length ∧ u.sa.sun_path.take u.len = bytes ∧
        u.sa.sun_path = bytes ++ List.replicate (sunPathLen - bytes.length) 0 ∧
        u.sa.sun_family = AF_UNIX_C ∧ u.wf)
  ∧ (bytes.length ≤ sunPathLen → ∃ u : UnixAddr, UnixAddr.new bytes = .ok u)
  ∧ (UnixAddr.new_abstract bytes = .error .ENAMETOOLONG ↔ sunPathLen < bytes.length + 1)
  ∧ (∀ u : UnixAddr, UnixAddr.new_abstract bytes = .ok u →
      u.len = bytes.length + 1 ∧ u.sa.sun_path.take u.len = 0 :: bytes ∧
        u.sa.sun_family = AF_UNIX_C ∧ u.wf)
  ∧ (bytes.length + 1 ≤ sunPathLen → ∃ u : UnixAddr, UnixAddr.new_abstract bytes = .ok u) := by
  refine ⟨?_, ?_, ?_, ?_, ?_, ?_⟩
  · unfold UnixAddr.new
    split
    · simp; omega
    · simp; omega
  · intro u hu
    unfold UnixAddr.new at hu
    split at hu
    · cases hu
    · rename_i hle
      cases hu
      have hlen : bytes.length ≤ sunPathLen := by omega
      refine ⟨rfl, ?_, rfl, rfl, ?_, ?_⟩
      · exact List.take_left bytes _
      · simp [List.length_append, List.length_replicate]; omega
      · simpa using hlen
  · intro h
    exact ⟨_, by unfold UnixAddr.new; split <;> [omega; rfl]⟩
  · unfold UnixAddr.new_abstract
    split
    · simp; omega
    · simp; omega
  · intro u hu
    unfold UnixAddr.new_abstract at hu
    split at hu
    · cases hu
    · rename_i hle
      cases hu
      have hlen : bytes.length + 1 ≤ sunPathLen := by omega
      refine ⟨rfl, ?_, rfl, ?_, ?_⟩
      · simp [List.take_succ_cons, List.take_left bytes]
      · simp [List.length_append, List.length_replicate]; omega
      · simpa using hlen
  · intro h
    exact ⟨_, by unfold UnixAddr.new_abstract; split <;> [omega; rfl]⟩

/-- C5 witness: the theorem applied at concrete inputs — a path of exactly
the buffer capacity is accepted, one byte more is rejected with
`ENAMETOOLONG`, and an abstract name of capacity-minus-one is accepted. -/
theorem c5_unixaddr_new_length_check_witness :
    (List.replicate sunPathLen 47).length ≤ sunPathLen
  ∧ (∃ u : UnixAddr, UnixAddr.new (List.replicate sunPathLen 47) = .ok u)
  ∧ UnixAddr.new (List.replicate (sunPathLen + 1) 47) = .error .ENAMETOOLONG
  ∧ (∃ u : UnixAddr, UnixAddr.new_abstract (List.replicate (sunPathLen - 1) 97) = .ok u) := by
  refine ⟨by simp, (c5_unixaddr_new_length_check _).2.2.1 (by simp),
    ((c5_unixaddr_new_length_check _).1).mpr (by simp [sunPathLen]),
    (c5_unixaddr_new_length_check _).2.2.2.2.2 (by simp [sunPathLen])⟩

/-- The effective path length exactly as the spec words it: the minimum of
the position of the first embedded NUL — scanned only within the first
`used_length` bytes — and the used length itself (when no NUL occurs in the
scanned region the minimum degenerates to the used length). -/
def specEffectiveLen (u : UnixAddr) : Nat :=
  match (u.sa.sun_path.take u.len).findIdx? (fun b => b == 0) with
  | some i => min i u.len
  | none => u.len

/-- C4: `path()` returns `None` when the used length is 0 or the first
buffer byte is 0; otherwise it returns the first `specEffectiveLen` bytes of
the buffer.  It never reads past `used_length`: its result is a function of
the used length and the used-length-bounded slice alone.  In particular a
buffer whose used length exactly fills it with no NUL anywhere still yields
the full path of exactly that length. -/
theorem c4_unixaddr_path (u : UnixAddr) (hw : u.wf) :
    (u.len = 0 ∨ u.sa.sun_path.headD 0 = 0 → u.path = none)
  ∧ (0 < u.len → u.sa.sun_path.headD 0 ≠ 0 →
      u.path = some (u.sa.sun_path.take (specEffectiveLen u)))
  ∧ (∀ v : UnixAddr, u.len = v.len →
      u.sa.sun_path.take u.len = v.sa.sun_path.take v.len → u.path = v.path)
  ∧ (0 < u.len → u.sa.sun_path.headD 0 ≠ 0 →
      (∀ i, i < u.len → u.sa.sun_path.getD i 1 ≠ 0) →
      u.path = some (u.sa.sun_path.take u.len) ∧
        (u.sa.sun_path.take u.len).length = u.len) := by
  obtain ⟨hlen108, hle⟩ := hw
  have hmain : 0 < u.len → u.sa.sun_path.headD 0 ≠ 0 →
      u.path = some (u.sa.sun_path.take (specEffectiveLen u)) := by
    intro hpos hhead
    have hcond : ¬(u.len = 0 ∨ u.sa.sun_path.headD 0 = 0) := by
      push_neg
      exact ⟨Nat.pos_iff_ne_zero.mp hpos, hhead⟩
    cases h : (u.sa.sun_path.take u.len).findIdx? (fun b => b == 0) with
    | some i =>
        have hspec : specEffectiveLen u = min i u.len := by
          unfold specEffectiveLen
          rw [h]
        obtain ⟨hi, hfi⟩ := List.findIdx?_eq_some_iff_findIdx_eq.mp h
        unfold UnixAddr.path UnixAddr.sun_path_slice strnlen
        rw [if_neg hcond, hfi, List.take_take, hspec]
    | none =>
        have hspec : specEffectiveLen u = u.len := by
          unfold specEffectiveLen
          rw [h]
        have hall := List.findIdx?_eq_none_iff.mp h
        have hmin : min (min u.len u.sa.sun_path.length) u.len = u.len := by
          rw [hlen108]
          omega
        unfold UnixAddr.path UnixAddr.sun_path_slice strnlen
        rw [if_neg hcond, List.findIdx_eq_length_of_false hall, List.length_take,
          List.take_take, hmin, hspec]
  refine ⟨?_, hmain, ?_, ?_⟩
  · intro h
    unfold UnixAddr.path
    rw [if_pos h]
  · intro v hlenEq hbytes
    rcases Nat.eq_zero_or_pos u.len with h0 | hpos
    · unfold UnixAddr.path
      rw [if_pos (Or.inl h0), if_pos (Or.inl (by omega))]
    · have htake_head : ∀ (l : List Nat) (n : Nat), 0 < n → (l.take n).headD 0 = l.headD 0 := by
        intro l n hn
        cases l <;> cases n <;> simp_all
      have hheads : u.sa.sun_path.headD 0 = v.sa.sun_path.headD 0 := by
        rw [← htake_head u.sa.sun_path u.len hpos, hbytes,
          htake_head v.sa.sun_path v.len (by omega)]
      unfold UnixAddr.path UnixAddr.sun_path_slice strnlen
      rw [hbytes]
      simp only [hlenEq, hheads]
  · intro hpos hhead hnonul
    have hnone : (u.sa.sun_path.take u.len).findIdx? (fun b => b == 0) = none := by
      rw [List.findIdx?_eq_none_iff]
      intro x hx
      obtain ⟨i, hi, hgx⟩ := List.mem_iff_getElem.mp hx
      have hilt : i < u.len := by
        have := hi
        rw [List.length_take] at this
        omega
      have hib : i < u.sa.sun_path.length := by omega
      have hx0 : x = u.sa.sun_path.getD i 1 := by
        rw [List.getD_eq_getElem u.sa.sun_path 1 hib, ← hgx, List.getElem_take]
      have := hnonul i hilt
      rw [← hx0] at this
      simp [this]
    have hspec : specEffectiveLen u = u.len := by
      unfold specEffectiveLen
      rw [hnone]
    refine ⟨?_, ?_⟩
    · rw [hmain hpos hhead, hspec]
    · rw [List.length_take]
      omega

/-- C4 witness: the theorem applied at concrete inputs — a buffer completely
filled by 108 non-NUL bytes with used length 108 yields the full 108-byte
path, and an unnamed address (used length 0) yields `None`. -/
theorem c4_unixaddr_path_witness :
    (⟨⟨1, List.replicate 108 65⟩, 108⟩ : UnixAddr).wf
  ∧ UnixAddr.path ⟨⟨1, List.replicate 108 65⟩, 108⟩ =
      some (List.take 108 (List.replicate 108 65))
  ∧ (List.take 108 (List.replicate (108 : Nat) 65)).length = 108
  ∧ UnixAddr.path ⟨⟨1, List.replicate 108 65⟩, 0⟩ = none := by
  have h := (c4_unixaddr_path ⟨⟨1, List.replicate 108 65⟩, 108⟩ (by decide)).2.2.2
    (by decide) (by decide) (by decide)
  refine ⟨by decide, h.1, h.2, ?_⟩
  exact (c4_unixaddr_path ⟨⟨1, List.replicate 108 65⟩, 0⟩ (by decide)).1 (Or.inl rfl)

theorem from_i32_netlink_platform {p : Platform} {c : Int}
    (h : AddressFamily.from_i32 p c = some .Netlink) : p.isLinuxLike = true := by
  unfold AddressFamily.from_i32 at h
  split_ifs at h with h1 h2 h3 h4 h5 h6 <;> simp_all

theorem from_i32_packet_platform {p : Platform} {c : Int}
    (h : AddressFamily.from_i32 p c = some .Packet) : p.isLinuxLike = true := by
  unfold AddressFamily.from_i32 at h
  split_ifs at h with h1 h2 h3 h4 h5 h6 <;> simp_all

theorem from_i32_system_platform {p : Platform} {c : Int}
    (h : AddressFamily.from_i32 p c = some .System) : p.isAppleLike = true := by
  unfold AddressFamily.from_i32 at h
  split_ifs at h with h1 h2 h3 h4 h5 h6 <;> simp_all [Platform.isAppleLike]

/-- C7: `from_libc_sockaddr` fails closed — `None` for a null pointer, for
any header family code that `AddressFamily::from_i32` does not recognize,
and for the Unix family specifically — and for a recognized Inet, Inet6,
Netlink, Packet or System code it returns the matching variant wrapping the
buffer's reading as that variant's structure type. -/
theorem c7_from_libc_sockaddr_dispatch :
    (∀ p : Platform, SockAddr.from_libc_sockaddr p none = none)
  ∧ (∀ (p : Platform) (r : RawSock),
      AddressFamily.from_i32 p (r.sa_family : Int) = none →
        SockAddr.from_libc_sockaddr p (some r) = none)
  ∧ (∀ (p : Platform) (r : RawSock),
      AddressFamily.from_i32 p (r.sa_family : Int) = some .Unix →
        SockAddr.from_libc_sockaddr p (some r) = none)
  ∧ (∀ (p : Platform) (r : RawSock),
      AddressFamily.from_i32 p (r.sa_family : Int) = some .Inet →
        SockAddr.from_libc_sockaddr p (some r) = some (.Inet (.V4 r.as_sockaddr_in)))
  ∧ (∀ (p : Platform) (r : RawSock),
      AddressFamily.from_i32 p (r.sa_family : Int) = some .Inet6 →
        SockAddr.from_libc_sockaddr p (some r) = some (.Inet (.V6 r.as_sockaddr_in6)))
  ∧ (∀ (p : Platform) (r : RawSock),
      AddressFamily.from_i32 p (r.sa_family : Int) = some .Netlink →
        SockAddr.from_libc_sockaddr p (some r) = some (.Netlink ⟨r.as_sockaddr_nl⟩))
  ∧ (∀ (p : Platform) (r : RawSock),
      AddressFamily.from_i32 p (r.sa_family : Int) = some .Packet →
        SockAddr.from_libc_sockaddr p (some r) = some (.Packet ⟨r.as_sockaddr_ll⟩))
  ∧ (∀ (p : Platform) (r : RawSock),
      AddressFamily.from_i32 p (r.sa_family : Int) = some .System →
        SockAddr.from_libc_sockaddr p (some r) = some (.SysControl ⟨r.as_sockaddr_ctl⟩)) := by
  refine ⟨fun p => rfl, ?_, ?_, ?_, ?_, ?_, ?_, ?_⟩ <;> intro p r h <;>
    simp only [SockAddr.from_libc_sockaddr, h]
  · rw [if_pos (from_i32_netlink_platform h)]
  · rw [if_pos (from_i32_packet_platform h)]
  · rw [if_pos (from_i32_system_platform h)]

/-- C7 witness: the theorem applied at concrete inputs on Linux — a buffer
whose header declares the IPv6 family code 10 decodes to `Inet (V6 ...)`
with the buffer's `sockaddr_in6` reading, a null pointer yields `None`, and
an unrecognized code 99 yields `None`. -/
theorem c7_from_libc_sockaddr_dispatch_witness :
    AddressFamily.from_i32 .linux
      ((⟨10, ⟨2, 0, ⟨0⟩⟩, ⟨10, 443, 7, ⟨List.replicate 16 1⟩, 3⟩, ⟨16, 0, 0⟩,
          ⟨17, 0, 0, 0, 0, 0, List.replicate 8 0⟩,
          ⟨32, 32, 2, 0, 0, List.replicate 5 0⟩⟩ : RawSock).sa_family : Int) = some .Inet6
  ∧ SockAddr.from_libc_sockaddr .linux
      (some ⟨10, ⟨2, 0, ⟨0⟩⟩, ⟨10, 443, 7, ⟨List.replicate 16 1⟩, 3⟩, ⟨16, 0, 0⟩,
          ⟨17, 0, 0, 0, 0, 0, List.replicate 8 0⟩,
          ⟨32, 32, 2, 0, 0, List.replicate 5 0⟩⟩) =
      some (.Inet (.V6 ⟨10, 443, 7, ⟨List.replicate 16 1⟩, 3⟩))
  ∧ SockAddr.from_libc_sockaddr .linux none = none
  ∧ AddressFamily.from_i32 .linux
      ((⟨99, ⟨2, 0, ⟨0⟩⟩, ⟨10, 443, 7, ⟨List.replicate 16 1⟩, 3⟩, ⟨16, 0, 0⟩,
          ⟨17, 0, 0, 0, 0, 0, List.replicate 8 0⟩,
          ⟨32, 32, 2, 0, 0, List.replicate 5 0⟩⟩ : RawSock).sa_family : Int) = none
  ∧ SockAddr.from_libc_sockaddr .linux
      (some ⟨99, ⟨2, 0, ⟨0⟩⟩, ⟨10, 443, 7, ⟨List.replicate 16 1⟩, 3⟩, ⟨16, 0, 0⟩,
          ⟨17, 0, 0, 0, 0, 0, List.replicate 8 0⟩,
          ⟨32, 32, 2, 0, 0, List.replicate 5 0⟩⟩) = none := by
  refine ⟨by decide, c7_from_libc_sockaddr_dispatch.2.2.2.2.1 .linux _ (by decide),
    c7_from_libc_sockaddr_dispatch.1 .linux, by decide,
    c7_from_libc_sockaddr_dispatch.2.1 .linux _ (by decide)⟩

theorem swap16_bytes {a b : Nat} (ha : a < 256) (hb : b < 256) :
    swap16 (a * 256 + b) = b * 256 + a := by
  unfold swap16
  omega

theorem swap16_swap16 {n : Nat} (h : n < 2 ^ 16) : swap16 (swap16 n) = n := by
  have h1 : swap16 n = n % 256 * 256 + n / 256 := by
    unfold swap16
    omega
  rw [h1, swap16_bytes (by omega) (by omega)]
  omega

theorem swap32_bytes {a b c d : Nat} (ha : a < 256) (hb : b < 256) (hc : c < 256)
    (hd : d < 256) :
    swap32 (a * 2 ^ 24 + b * 2 ^ 16 + c * 2 ^ 8 + d) =
      d * 2 ^ 24 + c * 2 ^ 16 + b * 2 ^ 8 + a := by
  unfold swap32
  omega

/-- The port accessor of `std::net::SocketAddr`. -/
def StdSocketAddr.port : StdSocketAddr → Nat
  | .V4 a => a.port
  | .V6 a => a.port

/-- Validity of a generic socket address: each octet is a `u8`, each segment
and the port a `u16` (flow-info and scope-id are arbitrary `u32` values and
need no bound for the statements below). -/
def StdSocketAddr.wf : StdSocketAddr → Prop
  | .V4 a => a.ip.o0 < 256 ∧ a.ip.o1 < 256 ∧ a.ip.o2 < 256 ∧ a.ip.o3 < 256 ∧ a.port < 2 ^ 16
  | .V6 a => a.ip.s0 < 2 ^ 16 ∧ a.ip.s1 < 2 ^ 16 ∧ a.ip.s2 < 2 ^ 16 ∧ a.ip.s3 < 2 ^ 16 ∧
      a.ip.s4 < 2 ^ 16 ∧ a.ip.s5 < 2 ^ 16 ∧ a.ip.s6 < 2 ^ 16 ∧ a.ip.s7 < 2 ^ 16 ∧
      a.port < 2 ^ 16

instance (s : StdSocketAddr) : Decidable s.wf := by
  unfold StdSocketAddr.wf
  cases s <;> infer_instance

/-- C8: for every valid generic socket address — including flow-info and
scope-id for IPv6 — `to_std` is the exact inverse of `from_std`, and the
port accessor always undoes the network-byte-order storage. -/
theorem c8_inetaddr_std_round_trip (s : StdSocketAddr) (hw : s.wf) :
    InetAddr.to_std (InetAddr.from_std s) = s
  ∧ InetAddr.port (InetAddr.from_std s) = s.port := by
  cases s with
  | V4 a =>
      obtain ⟨⟨o0, o1, o2, o3⟩, port⟩ := a
      obtain ⟨h0, h1, h2, h3, hp⟩ := hw
      replace h0 : o0 < 256 := h0
      replace h1 : o1 < 256 := h1
      replace h2 : o2 < 256 := h2
      replace h3 : o3 < 256 := h3
      replace hp : port < 2 ^ 16 := hp
      constructor
      · show StdSocketAddr.V4
            ⟨⟨swap32 (swap32 (o0 * 2 ^ 24 + o1 * 2 ^ 16 + o2 * 2 ^ 8 + o3)) / 2 ^ 24 % 256,
              swap32 (swap32 (o0 * 2 ^ 24 + o1 * 2 ^ 16 + o2 * 2 ^ 8 + o3)) / 2 ^ 16 % 256,
              swap32 (swap32 (o0 * 2 ^ 24 + o1 * 2 ^ 16 + o2 * 2 ^ 8 + o3)) / 2 ^ 8 % 256,
              swap32 (swap32 (o0 * 2 ^ 24 + o1 * 2 ^ 16 + o2 * 2 ^ 8 + o3)) % 256⟩,
             swap16 (swap16 port)⟩ = StdSocketAddr.V4 ⟨⟨o0, o1, o2, o3⟩, port⟩
        rw [swap32_bytes h0 h1 h2 h3, swap32_bytes h3 h2 h1 h0, swap16_swap16 hp]
        simp only [StdSocketAddr.V4.injEq, StdSocketAddrV4.mk.injEq, StdIpv4.mk.injEq,
          and_true, true_and]
        omega
      · show swap16 (swap16 port) = port
        exact swap16_swap16 hp
  | V6 a =>
      obtain ⟨⟨s0, s1, s2, s3, s4, s5, s6, s7⟩, port, flowinfo, scope_id⟩ := a
      obtain ⟨h0, h1, h2, h3, h4, h5, h6, h7, hp⟩ := hw
      replace h0 : s0 < 2 ^ 16 := h0
      replace h1 : s1 < 2 ^ 16 := h1
      replace h2 : s2 < 2 ^ 16 := h2
      replace h3 : s3 < 2 ^ 16 := h3
      replace h4 : s4 < 2 ^ 16 := h4
      replace h5 : s5 < 2 ^ 16 := h5
      replace h6 : s6 < 2 ^ 16 := h6
      replace h7 : s7 < 2 ^ 16 := h7
      replace hp : port < 2 ^ 16 := hp
      constructor
      · show StdSocketAddr.V6
            ⟨⟨s0 / 256 % 256 * 256 + s0 % 256, s1 / 256 % 256 * 256 + s1 % 256,
              s2 / 256 % 256 * 256 + s2 % 256, s3 / 256 % 256 * 256 + s3 % 256,
              s4 / 256 % 256 * 256 + s4 % 256, s5 / 256 % 256 * 256 + s5 % 256,
              s6 / 256 % 256 * 256 + s6 % 256, s7 / 256 % 256 * 256 + s7 % 256⟩,
             swap16 (swap16 port), flowinfo, scope_id⟩ =
          StdSocketAddr.V6 ⟨⟨s0, s1, s2, s3, s4, s5, s6, s7⟩, port, flowinfo, scope_id⟩
        rw [swap16_swap16 hp]
        simp only [StdSocketAddr.V6.injEq, StdSocketAddrV6.mk.injEq, StdIpv6.mk.injEq,
          and_true, true_and]
        omega
      · show swap16 (swap16 port) = port
        exact swap16_swap16 hp

/-- C8 witness: the theorem applied at `127.0.0.1:8080` and at
`[::1]:443` with flow-info 5 and scope-id 9. -/
theorem c8_inetaddr_std_round_trip_witness :
    (StdSocketAddr.V4 ⟨⟨127, 0, 0, 1⟩, 8080⟩).wf
  ∧ InetAddr.to_std (InetAddr.from_std (.V4 ⟨⟨127, 0, 0, 1⟩, 8080⟩)) =
      .V4 ⟨⟨127, 0, 0, 1⟩, 8080⟩
  ∧ InetAddr.port (InetAddr.from_std (.V4 ⟨⟨127, 0, 0, 1⟩, 8080⟩)) = 8080
  ∧ (StdSocketAddr.V6 ⟨⟨0, 0, 0, 0, 0, 0, 0, 1⟩, 443, 5, 9⟩).wf
  ∧ InetAddr.to_std (InetAddr.from_std (.V6 ⟨⟨0, 0, 0, 0, 0, 0, 0, 1⟩, 443, 5, 9⟩)) =
      .V6 ⟨⟨0, 0, 0, 0, 0, 0, 0, 1⟩, 443, 5, 9⟩ := by
  have h4 := c8_inetaddr_std_round_trip (.V4 ⟨⟨127, 0, 0, 1⟩, 8080⟩) (by decide)
  have h6 := c8_inetaddr_std_round_trip (.V6 ⟨⟨0, 0, 0, 0, 0, 0, 0, 1⟩, 443, 5, 9⟩) (by decide)
  exact ⟨by decide, h4.1, h4.2, by decide, h6.1⟩
